import Mathlib

/-!
Shallow embedding of the robot-universal-cla pull-request CLA bot
(package main: robot.go, robot_helper.go, config.go).

The platform client (iClient) is modelled as an oracle record holding the
results each client call would return; every bot function is translated to a
pure function that returns the ordered list of client calls it performs.
Machine strings are Lean String, Go slices are Lean List.
-/

namespace RobotCLA

/-- client.PRCommit, the commit metadata supplied by the platform
(fields in the positional order used by the tests). -/
structure PRCommit where
  authorName : String
  authorEmail : String
  committerName : String
  committerEmail : String
deriving DecidableEq, Repr

/-- client.PRComment, a pull-request comment with its identifier and body. -/
structure PRComment where
  id : String
  body : String
deriving DecidableEq, Repr

/-- litePRCommiter from config.go: the placeholder committer identity. -/
structure LitePRCommitter where
  email : String
  name : String
deriving DecidableEq, Repr

/-- repoConfig from config.go (the fields the core logic reads). -/
structure RepoConfig where
  claLabelYes : String
  claLabelNo : String
  checkURL : String
  signURL : String
  faqURL : String
  checkByCommitter : Bool
  litePRCommitter : LitePRCommitter
deriving DecidableEq, Repr

/-- configuration from config.go: the global templated comment strings and
placeholder tokens the bot reads from bot.cnf. -/
structure BotConfig where
  userMarkFormat : String
  commentCommandTrigger : String
  commentPRNoCommits : String
  commentAllSigned : String
  commentSomeNeedSign : String
  commentUpdateLabelFailed : String
  placeholderCommitter : String
  placeholderCLASignGuideTitle : String
  placeholderCLASignPassTitle : String
deriving DecidableEq, Repr

/-- One outbound client call performed by the bot, with its payload. -/
inductive Call where
  | getPullRequestCommits
  | getPullRequestLabels
  | listPullRequestComments
  | checkCLASignature (urlStr : String)
  | createPRComment (comment : String)
  | addPRLabels (labels : List String)
  | removePRLabels (labels : List String)
  | deletePRComment (commentID : String)
deriving DecidableEq, Repr

/-- The platform client modelled as an oracle: the result each call returns.
Fallible fetches return Option (none is the failed success flag); label
mutations answer with a success Bool depending on the submitted payload.
CreatePRComment and DeletePRComment results are discarded by the bot, so
they need no oracle entry. -/
structure Client where
  getPullRequestCommitsResult : Option (List PRCommit)
  getPullRequestLabelsResult : List String
  checkCLASignatureResult : String → String
  addPRLabelsResult : List String → Bool
  removePRLabelsResult : List String → Bool
  listPullRequestCommentsResult : Option (List PRComment)

/-- client.CLASignStateYes, the signature-service answer meaning signed. -/
def claSignStateYes : String := "yes"

/-- client.CLASignStateNo, the signature-service answer meaning unsigned. -/
def claSignStateNo : String := "no"

/-- The UTF-8 bytes of one character, as Go produces for a byte slice of a
string; used to model net/url query escaping byte by byte. -/
def utf8Bytes (c : Char) : List Nat :=
  let n := c.toNat
  if n < 128 then [n]
  else if n < 2048 then [192 + n / 64, 128 + n % 64]
  else if n < 65536 then [224 + n / 4096, 128 + (n / 64) % 64, 128 + n % 64]
  else [240 + n / 262144, 128 + (n / 4096) % 64, 128 + (n / 64) % 64, 128 + n % 64]

/-- Upper-case hexadecimal digit for a nibble. -/
def hexUpper (n : Nat) : Char :=
  if n < 10 then Char.ofNat (48 + n) else Char.ofNat (55 + n)

/-- Bytes net/url leaves unescaped in a query component:
alphanumerics and minus, underscore, dot, tilde. -/
def isUnreservedByte (n : Nat) : Bool :=
  (65 ≤ n && n ≤ 90) || (97 ≤ n && n ≤ 122) || (48 ≤ n && n ≤ 57) ||
    n == 45 || n == 95 || n == 46 || n == 126

/-- How net/url QueryEscape renders one byte: kept, space as plus,
or percent-encoded. -/
def queryEscapeByte (n : Nat) : List Char :=
  if isUnreservedByte n then [Char.ofNat n]
  else if n == 32 then ['+']
  else ['%', hexUpper (n / 16), hexUpper (n % 16)]

/-- net/url QueryEscape as used on label names before RemovePRLabels. -/
def queryEscape (s : String) : String :=
  ⟨(s.toList.flatMap utf8Bytes).flatMap queryEscapeByte⟩

/-- strings.Contains: sub occurs as a contiguous substring of s. -/
def charSuffixes : List Char → List (List Char)
  | [] => [[]]
  | c :: cs => (c :: cs) :: charSuffixes cs

/-- strings.Contains over Lean strings. -/
def strContains (s sub : String) : Bool :=
  (charSuffixes s.toList).any (fun t => sub.toList.isPrefixOf t)

/-- The loop body of ListContributorNameAndEmail: walk the commits, growing
the author (names, emails) pair and the committer pair, appending a commit
entry only when its email was not seen before in that pair. -/
def contribLoop : List PRCommit → (List String × List String) →
    (List String × List String) → (List String × List String) × (List String × List String)
  | [], a, m => (a, m)
  | c :: rest, a, m =>
    let a2 := if a.2.contains c.authorEmail then a
      else (a.1 ++ [c.authorName], a.2 ++ [c.authorEmail])
    let m2 := if m.2.contains c.committerEmail then m
      else (m.1 ++ [c.committerName], m.2 ++ [c.committerEmail])
    contribLoop rest a2 m2

/-- ListContributorNameAndEmail from robot_helper.go: the deduplicated
(users, emails) pair, drawn from committer fields when checkByCommitter
is set and from author fields otherwise. -/
def listContributorNameAndEmail (commits : List PRCommit) (repoCnf : RepoConfig) :
    List String × List String :=
  let r := contribLoop commits ([], []) ([], [])
  if repoCnf.checkByCommitter then r.2 else r.1

/-- The query URL built for one email:
fmt.Sprintf with format string percent-s question-mark email equals percent-s. -/
def checkURLFor (repoCnf : RepoConfig) (email : String) : String :=
  repoCnf.checkURL ++ "?email=" ++ email

/-- The classification loop of checkCLASignResult over the (user, email)
pairs: lite or empty emails go to the unknown bucket without a service
call; the rest get one CheckCLASignature call whose answer is mapped
yes to signed, no to unsigned, anything else to unknown. Returns the
(signed, unsigned, unknown) buckets and the service calls in order. -/
def classifyLoop (cli : Client) (repoCnf : RepoConfig) :
    List (String × String) → (List String × List String × List String) × List Call
  | [] => (([], [], []), [])
  | (u, e) :: rest =>
    if repoCnf.litePRCommitter.email == e || e == "" then
      let r := classifyLoop cli repoCnf rest
      ((r.1.1, r.1.2.1, u :: r.1.2.2), r.2)
    else
      let urlStr := checkURLFor repoCnf e
      let signState := cli.checkCLASignatureResult urlStr
      let r := classifyLoop cli repoCnf rest
      if signState == claSignStateYes then
        ((u :: r.1.1, r.1.2.1, r.1.2.2), Call.checkCLASignature urlStr :: r.2)
      else if signState == claSignStateNo then
        ((r.1.1, u :: r.1.2.1, r.1.2.2), Call.checkCLASignature urlStr :: r.2)
      else
        ((r.1.1, r.1.2.1, u :: r.1.2.2), Call.checkCLASignature urlStr :: r.2)

/-- The signResult array of checkCLASignResult: index 0 signed, index 1
unsigned, index 2 unknown; components not set on a return path stay nil. -/
structure SignResult where
  signed : List String
  unsigned : List String
  unknown : List String
deriving DecidableEq, Repr

/-- checkCLASignResult from robot_helper.go: extract identities, classify
them, then derive (allSigned, signResult) with the unknown bucket taking
priority (posting the fixed trigger comment), then the unsigned bucket,
else the signed outcome. -/
def checkCLASignResult (cli : Client) (cnf : BotConfig) (repoCnf : RepoConfig)
    (commits : List PRCommit) : (Bool × SignResult) × List Call :=
  let ue := listContributorNameAndEmail commits repoCnf
  let c := classifyLoop cli repoCnf (ue.1.zip ue.2)
  let signedUsers := c.1.1
  let unsignedUsers := c.1.2.1
  let unknownUsers := c.1.2.2
  if unknownUsers.length ≠ 0 then
    ((false, ⟨[], [], unknownUsers⟩), c.2 ++ [Call.createPRComment cnf.commentCommandTrigger])
  else if unsignedUsers.length ≠ 0 then
    ((false, ⟨[], unsignedUsers, []⟩), c.2)
  else
    ((decide (ue.2.length ≠ 0) && (signedUsers.length == ue.2.length),
      ⟨signedUsers, [], []⟩), c.2)

/-- removeCLASignGuideComment from robot_helper.go: list the PR comments
(silently stopping when the listing fails) and delete every comment whose
body contains the guide marker or the pass marker; delete results are
discarded. -/
def removeCLASignGuideComment (cli : Client) (cnf : BotConfig) : List Call :=
  match cli.listPullRequestCommentsResult with
  | none => [Call.listPullRequestComments]
  | some comments =>
    Call.listPullRequestComments ::
      comments.filterMap (fun c =>
        if strContains c.body cnf.placeholderCLASignGuideTitle ||
            strContains c.body cnf.placeholderCLASignPassTitle then
          some (Call.deletePRComment c.id)
        else none)

/-- fmt.Sprintf restricted to the percent-s verb, which is how the
configured comment templates use it: substitute the arguments for the
percent-s occurrences from left to right. -/
def sprintfAux : List Char → List String → List Char
  | [], _ => []
  | '%' :: 's' :: rest, arg :: args => arg.toList ++ sprintfAux rest args
  | c :: rest, args => c :: sprintfAux rest args

/-- fmt.Sprintf over a format string and string arguments. -/
def goSprintf (format : String) (args : List String) : String :=
  ⟨sprintfAux format.toList args⟩

/-- passCLASignature from robot_helper.go: remove labelNo only when present
(a failed removal posts the fixed label-update-failed comment and goes on),
then unconditionally attempt to add labelYes; on success build the
all-signed comment and clean stale guidance comments, on failure post the
fixed failure comment. -/
def passCLASignature (cli : Client) (cnf : BotConfig) (repoCnf : RepoConfig)
    (signedUsers prLabels : List String) : List Call :=
  let removeCalls :=
    if prLabels.contains repoCnf.claLabelNo then
      if cli.removePRLabelsResult [queryEscape repoCnf.claLabelNo] then
        [Call.removePRLabels [queryEscape repoCnf.claLabelNo]]
      else
        [Call.removePRLabels [queryEscape repoCnf.claLabelNo],
          Call.createPRComment cnf.commentUpdateLabelFailed]
    else []
  if cli.addPRLabelsResult [repoCnf.claLabelYes] then
    let signedUserMark := signedUsers.map
      (fun user => (cnf.userMarkFormat).replace cnf.placeholderCommitter user)
    let comment := (cnf.commentAllSigned).replace cnf.placeholderCommitter
      (String.intercalate ", " signedUserMark)
    removeCalls ++ [Call.addPRLabels [repoCnf.claLabelYes]] ++
      removeCLASignGuideComment cli cnf ++ [Call.createPRComment comment]
  else
    removeCalls ++ [Call.addPRLabels [repoCnf.claLabelYes]] ++
      [Call.createPRComment cnf.commentUpdateLabelFailed]

/-- waitCLASignature from robot_helper.go: a no-op on an empty unsigned
list; otherwise remove labelYes only when present (failure posts the fixed
failure comment and goes on), then unconditionally attempt to add labelNo;
on success build the needs-signing comment from the template, the sign URL
and the FAQ URL and clean stale guidance comments, on failure post the
fixed failure comment. -/
def waitCLASignature (cli : Client) (cnf : BotConfig) (repoCnf : RepoConfig)
    (unsignedUsers prLabels : List String) : List Call :=
  if unsignedUsers.length == 0 then []
  else
    let removeCalls :=
      if prLabels.contains repoCnf.claLabelYes then
        if cli.removePRLabelsResult [queryEscape repoCnf.claLabelYes] then
          [Call.removePRLabels [queryEscape repoCnf.claLabelYes]]
        else
          [Call.removePRLabels [queryEscape repoCnf.claLabelYes],
            Call.createPRComment cnf.commentUpdateLabelFailed]
      else []
    if cli.addPRLabelsResult [repoCnf.claLabelNo] then
      let unsignedUserMark := unsignedUsers.map
        (fun user => (cnf.userMarkFormat).replace cnf.placeholderCommitter user)
      let comment := goSprintf cnf.commentSomeNeedSign
        [String.intercalate ", " unsignedUserMark, repoCnf.signURL, repoCnf.faqURL]
      removeCalls ++ [Call.addPRLabels [repoCnf.claLabelNo]] ++
        removeCLASignGuideComment cli cnf ++ [Call.createPRComment comment]
    else
      removeCalls ++ [Call.addPRLabels [repoCnf.claLabelNo]] ++
        [Call.createPRComment cnf.commentUpdateLabelFailed]

/-- checkIfAllSignedCLA from robot_helper.go: fetch the commits (failure
posts the fixed trigger comment and aborts; an empty list posts the fixed
no-commits comment and aborts), read the labels, aggregate the sign state
and dispatch to the pass or wait reconciliation. -/
def checkIfAllSignedCLA (cli : Client) (cnf : BotConfig) (repoCnf : RepoConfig) :
    List Call :=
  match cli.getPullRequestCommitsResult with
  | none => [Call.getPullRequestCommits, Call.createPRComment cnf.commentCommandTrigger]
  | some commits =>
    if commits.length == 0 then
      [Call.getPullRequestCommits, Call.createPRComment cnf.commentPRNoCommits]
    else
      let prLabels := cli.getPullRequestLabelsResult
      let r := checkCLASignResult cli cnf repoCnf commits
      Call.getPullRequestCommits :: Call.getPullRequestLabels :: r.2 ++
        (if r.1.1 then passCLASignature cli cnf repoCnf r.1.2.signed prLabels
          else waitCLASignature cli cnf repoCnf r.1.2.unsigned prLabels)

/-- ASCII lower-casing of one character, modelling the case-insensitive
flag of the compiled comment regular expressions. -/
def asciiLower (c : Char) : Char :=
  if 65 ≤ c.toNat ∧ c.toNat ≤ 90 then Char.ofNat (c.toNat + 32) else c

/-- Split a character list at newline characters into its lines. -/
def splitOnNl : List Char → List (List Char)
  | [] => [[]]
  | c :: cs =>
    if c = '\n' then [] :: splitOnNl cs
    else
      match splitOnNl cs with
      | [] => [[c]]
      | l :: ls => (c :: l) :: ls

/-- The multiline case-insensitive anchored regular expressions of robot.go:
the pattern matches when some newline-delimited line of the body equals the
target exactly, compared after ASCII lower-casing. -/
def regexpMultilineExact (target : String) (s : String) : Bool :=
  (splitOnNl s.toList).any (fun l => l.map asciiLower == target.toList)

/-- regexpCheckCLAComment of robot.go applied to a comment body. -/
def matchCheckCLAComment (s : String) : Bool := regexpMultilineExact "/check-cla" s

/-- regexpCancelCLAComment of robot.go applied to a comment body. -/
def matchCancelCLAComment (s : String) : Bool := regexpMultilineExact "/cla cancel" s

/-- handlePullRequestCommentEvent from robot.go, after repository
configuration resolution: the cancel command reads the labels and, when the
yes label is present, submits a removal of the escaped no label; otherwise
only a check-cla match starts a full evaluation. -/
def handlePullRequestCommentEvent (cli : Client) (cnf : BotConfig)
    (repoCnf : RepoConfig) (comment : String) : List Call :=
  if matchCancelCLAComment comment then
    if cli.getPullRequestLabelsResult.contains repoCnf.claLabelYes then
      [Call.getPullRequestLabels, Call.removePRLabels [queryEscape repoCnf.claLabelNo]]
    else
      [Call.getPullRequestLabels]
  else if !(matchCheckCLAComment comment) then []
  else checkIfAllSignedCLA cli cnf repoCnf

/-! Derived views of the aggregation, used to state its properties. -/

/-- The guard of the lite-committer branch: the email equals the configured
lite committer email or is empty. -/
def liteOrEmptyB (repoCnf : RepoConfig) (e : String) : Bool :=
  repoCnf.litePRCommitter.email == e || e == ""

/-- The answer the signature service gives for one email, through the
query URL the bot builds for it. -/
def serviceAnswer (cli : Client) (repoCnf : RepoConfig) (e : String) : String :=
  cli.checkCLASignatureResult (checkURLFor repoCnf e)

/-- The contribution of one (user, email) pair to the signed bucket. -/
def specSigned (cli : Client) (repoCnf : RepoConfig) (p : String × String) :
    Option String :=
  if liteOrEmptyB repoCnf p.2 then none
  else if serviceAnswer cli repoCnf p.2 == claSignStateYes then some p.1 else none

/-- The contribution of one (user, email) pair to the unsigned bucket. -/
def specUnsigned (cli : Client) (repoCnf : RepoConfig) (p : String × String) :
    Option String :=
  if liteOrEmptyB repoCnf p.2 then none
  else if serviceAnswer cli repoCnf p.2 == claSignStateYes then none
  else if serviceAnswer cli repoCnf p.2 == claSignStateNo then some p.1 else none

/-- The contribution of one (user, email) pair to the unknown bucket: a lite
or empty email lands there regardless of the service, and so does any
service answer other than yes and no. -/
def specUnknown (cli : Client) (repoCnf : RepoConfig) (p : String × String) :
    Option String :=
  if liteOrEmptyB repoCnf p.2 then some p.1
  else if serviceAnswer cli repoCnf p.2 == claSignStateYes then none
  else if serviceAnswer cli repoCnf p.2 == claSignStateNo then none else some p.1

/-- The service call one (user, email) pair produces: none for a lite or
empty email, exactly one otherwise. -/
def specCall (repoCnf : RepoConfig) (p : String × String) : Option Call :=
  if liteOrEmptyB repoCnf p.2 then none
  else some (Call.checkCLASignature (checkURLFor repoCnf p.2))

/-- The identity pairs the aggregation runs over for a commit list. -/
def identityPairs (repoCnf : RepoConfig) (commits : List PRCommit) :
    List (String × String) :=
  ((listContributorNameAndEmail commits repoCnf).1).zip
    ((listContributorNameAndEmail commits repoCnf).2)

/-- The signed bucket of the aggregation over a commit list. -/
def signedOf (cli : Client) (repoCnf : RepoConfig) (commits : List PRCommit) :
    List String :=
  (classifyLoop cli repoCnf (identityPairs repoCnf commits)).1.1

/-- The unsigned bucket of the aggregation over a commit list. -/
def unsignedOf (cli : Client) (repoCnf : RepoConfig) (commits : List PRCommit) :
    List String :=
  (classifyLoop cli repoCnf (identityPairs repoCnf commits)).1.2.1

/-- The unknown bucket of the aggregation over a commit list. -/
def unknownOf (cli : Client) (repoCnf : RepoConfig) (commits : List PRCommit) :
    List String :=
  (classifyLoop cli repoCnf (identityPairs repoCnf commits)).1.2.2

/-- The signature-service calls of the aggregation over a commit list. -/
def serviceCallsOf (cli : Client) (repoCnf : RepoConfig) (commits : List PRCommit) :
    List Call :=
  (classifyLoop cli repoCnf (identityPairs repoCnf commits)).2

/-- First-seen deduplication by the email component, keeping for each email
the first (name, email) pair carrying it and preserving first-occurrence
order; seen is the list of emails already taken. -/
def firstSeenByEmail : List (String × String) → List String → List (String × String)
  | [], _ => []
  | p :: rest, seen =>
    if seen.contains p.2 then firstSeenByEmail rest seen
    else p :: firstSeenByEmail rest (p.2 :: seen)

/-- The (name, email) pair a commit contributes under the repository
policy: committer fields when checkByCommitter is set, author fields
otherwise. -/
def commitIdentity (repoCnf : RepoConfig) (c : PRCommit) : String × String :=
  if repoCnf.checkByCommitter then (c.committerName, c.committerEmail)
  else (c.authorName, c.authorEmail)

/-- Go whitespace characters relevant to trimming a one-line command. -/
def isSpaceChar (c : Char) : Bool :=
  c == ' ' || c == '\t' || c == '\n' || c == '\r'

/-- Modelled from the spec: the claim C6 trigger condition, namely that the
comment body is exactly the check-cla command compared case-insensitively
after discarding surrounding whitespace. -/
def specCheckCLATrigger (s : String) : Bool :=
  ((s.toList.dropWhile isSpaceChar).reverse.dropWhile isSpaceChar).reverse.map asciiLower
    == "/check-cla".toList

/-! Concrete fixtures used by the witness theorems. -/

/-- A concrete global configuration. -/
def cnfA : BotConfig :=
  ⟨"MARK __committer__", "please retry the cla check", "the pull request has no commits",
    "all signed by __committer__", "need sign by %s, see %s and %s",
    "label update failed", "__committer__", "CLA Guide", "CLA Pass"⟩

/-- A concrete repository policy with simple labels. -/
def repoA : RepoConfig :=
  ⟨"cla-yes", "cla-no", "check.example", "sign.example", "faq.example",
    false, ⟨"lite.committer.example", "lite"⟩⟩

/-- A concrete repository policy whose no label contains a space. -/
def repoSpace : RepoConfig :=
  ⟨"cla yes", "cla no", "check.example", "sign.example", "faq.example",
    false, ⟨"lite.committer.example", "lite"⟩⟩

/-- A client whose signature service answers yes for every email. -/
def cliAllYes : Client :=
  ⟨some [⟨"u1", "e1", "c1", "ce1"⟩], [], fun _ => "yes", fun _ => true,
    fun _ => true, some []⟩

/-- A client for which fetching the pull-request commits fails. -/
def cliNoCommits : Client :=
  ⟨none, [], fun _ => "yes", fun _ => true, fun _ => true, some []⟩

/-- A client whose pull request has an empty commit list. -/
def cliEmptyCommits : Client :=
  ⟨some [], [], fun _ => "yes", fun _ => true, fun _ => true, some []⟩

/-- A client whose pull request carries the yes label. -/
def cliYesLabel : Client :=
  ⟨some [⟨"u1", "e1", "c1", "ce1"⟩], ["cla-yes"], fun _ => "yes", fun _ => true,
    fun _ => true, some []⟩

/-- A client whose pull request has one guide comment and one plain
comment. -/
def cliComments : Client :=
  ⟨some [⟨"u1", "e1", "c1", "ce1"⟩], [], fun _ => "yes", fun _ => true,
    fun _ => true, some [⟨"id1", "x CLA Guide y"⟩, ⟨"id2", "plain text"⟩]⟩

end RobotCLA

namespace RobotCLA

/-! Helper lemmas shared by the claim theorems. -/

/-- Closed form of the classification loop: each bucket and the call list
are element-wise images of the identity pairs. -/
theorem classifyLoop_spec (cli : Client) (repoCnf : RepoConfig) :
    ∀ l : List (String × String),
      classifyLoop cli repoCnf l =
        ((l.filterMap (specSigned cli repoCnf), l.filterMap (specUnsigned cli repoCnf),
          l.filterMap (specUnknown cli repoCnf)), l.filterMap (specCall repoCnf))
  | [] => rfl
  | (u, e) :: rest => by
    have ih := classifyLoop_spec cli repoCnf rest
    simp only [classifyLoop, ih, List.filterMap_cons, specSigned, specUnsigned,
      specUnknown, specCall, liteOrEmptyB, serviceAnswer]
    by_cases h1 : (repoCnf.litePRCommitter.email == e || e == "") = true
    · simp [h1]
    · simp only [Bool.not_eq_true] at h1
      simp only [h1]
      by_cases h2 : (cli.checkCLASignatureResult (checkURLFor repoCnf e) == claSignStateYes) = true
      · simp [h2]
      · simp only [Bool.not_eq_true] at h2
        simp only [h2]
        by_cases h3 : (cli.checkCLASignatureResult (checkURLFor repoCnf e) == claSignStateNo) = true
        · simp [h3]
        · simp only [Bool.not_eq_true] at h3
          simp [h3]

/-- Every identity pair lands in exactly one bucket, so the bucket sizes
add up to the number of identity pairs. -/
theorem classify_sum_length (cli : Client) (repoCnf : RepoConfig) :
    ∀ l : List (String × String),
      ((classifyLoop cli repoCnf l).1.1.length + (classifyLoop cli repoCnf l).1.2.1.length)
          + (classifyLoop cli repoCnf l).1.2.2.length = l.length
  | [] => rfl
  | (u, e) :: rest => by
    have ih := classify_sum_length cli repoCnf rest
    simp only [classifyLoop]
    by_cases h1 : (repoCnf.litePRCommitter.email == e || e == "") = true
    · simp only [h1, if_pos, List.length_cons]
      omega
    · simp only [Bool.not_eq_true] at h1
      simp only [h1, Bool.false_eq_true, if_false]
      by_cases h2 : (cli.checkCLASignatureResult (checkURLFor repoCnf e) == claSignStateYes) = true
      · simp only [h2, if_pos, List.length_cons]
        omega
      · simp only [Bool.not_eq_true] at h2
        simp only [h2, Bool.false_eq_true, if_false]
        by_cases h3 : (cli.checkCLASignatureResult (checkURLFor repoCnf e) == claSignStateNo) = true
        · simp only [h3, if_pos, List.length_cons]
          omega
        · simp only [Bool.not_eq_true] at h3
          simp only [h3, Bool.false_eq_true, if_false, List.length_cons]
          omega

/-- The classification loop emits only signature-service calls. -/
theorem classify_calls_shape (cli : Client) (repoCnf : RepoConfig)
    (l : List (String × String)) :
    ∀ c ∈ (classifyLoop cli repoCnf l).2, ∃ u, c = Call.checkCLASignature u := by
  intro c hc
  rw [classifyLoop_spec] at hc
  simp only [List.mem_filterMap, specCall] at hc
  obtain ⟨p, _, hp⟩ := hc
  by_cases h : liteOrEmptyB repoCnf p.2 = true
  · rw [if_pos h] at hp
    cases hp
  · rw [if_neg h] at hp
    exact ⟨checkURLFor repoCnf p.2, (Option.some_inj.mp hp).symm⟩

/-- The guidance cleanup emits only the listing call and delete calls. -/
theorem guide_calls_shape (cli : Client) (cnf : BotConfig) :
    ∀ c ∈ removeCLASignGuideComment cli cnf,
      c = Call.listPullRequestComments ∨ ∃ i, c = Call.deletePRComment i := by
  intro c hc
  unfold removeCLASignGuideComment at hc
  cases h : cli.listPullRequestCommentsResult with
  | none =>
    rw [h] at hc
    simp only [List.mem_singleton] at hc
    exact Or.inl hc
  | some comments =>
    rw [h] at hc
    simp only [List.mem_cons, List.mem_filterMap] at hc
    rcases hc with rfl | ⟨a, _, ha⟩
    · exact Or.inl rfl
    · by_cases hb : (strContains a.body cnf.placeholderCLASignGuideTitle ||
          strContains a.body cnf.placeholderCLASignPassTitle) = true
      · rw [if_pos hb] at ha
        exact Or.inr ⟨a.id, (Option.some_inj.mp ha).symm⟩
      · rw [if_neg hb] at ha
        cases ha

/-- Zipping the two projections of a pair list gives the list back. -/
theorem zip_map_fst_snd {α β : Type} :
    ∀ l : List (α × β), (l.map Prod.fst).zip (l.map Prod.snd) = l
  | [] => rfl
  | p :: rest => by simp [zip_map_fst_snd rest]

/-- First-seen deduplication only depends on the membership semantics of
the seen list. -/
theorem firstSeenByEmail_congr :
    ∀ (l : List (String × String)) (s1 s2 : List String),
      (∀ x, s1.contains x = s2.contains x) →
      firstSeenByEmail l s1 = firstSeenByEmail l s2
  | [], _, _, _ => rfl
  | p :: rest, s1, s2, h => by
    simp only [firstSeenByEmail, h p.2]
    by_cases hc : s2.contains p.2 = true
    · simp only [hc, if_pos]
      exact firstSeenByEmail_congr rest s1 s2 h
    · simp only [Bool.not_eq_true] at hc
      simp only [hc, Bool.false_eq_true, if_false]
      have h2 : ∀ x, (p.2 :: s1).contains x = (p.2 :: s2).contains x := by
        intro x
        rw [List.contains_cons, List.contains_cons, h x]
      rw [firstSeenByEmail_congr rest _ _ h2]

/-- Appending a fresh email to the seen list is the same as consing it, as
far as deduplication is concerned. -/
theorem firstSeenByEmail_seen_append (l : List (String × String)) (s : List String)
    (a : String) :
    firstSeenByEmail l (s ++ [a]) = firstSeenByEmail l (a :: s) := by
  refine firstSeenByEmail_congr l _ _ ?_
  intro x
  simp [List.contains_eq_any_beq, List.any_append, Bool.or_comm]

/-- Closed form of the extraction loop: each accumulator pair grows by the
first-seen deduplication of the projected commits, author and committer
sides independently. -/
theorem contribLoop_spec :
    ∀ (commits : List PRCommit) (us es ms mes : List String),
      contribLoop commits (us, es) (ms, mes) =
        ((us ++ (firstSeenByEmail
            (commits.map fun c => (c.authorName, c.authorEmail)) es).map Prod.fst,
          es ++ (firstSeenByEmail
            (commits.map fun c => (c.authorName, c.authorEmail)) es).map Prod.snd),
          (ms ++ (firstSeenByEmail
            (commits.map fun c => (c.committerName, c.committerEmail)) mes).map Prod.fst,
          mes ++ (firstSeenByEmail
            (commits.map fun c => (c.committerName, c.committerEmail)) mes).map Prod.snd))
  | [], us, es, ms, mes => by simp [contribLoop, firstSeenByEmail]
  | c :: rest, us, es, ms, mes => by
    simp only [contribLoop, List.map_cons, firstSeenByEmail]
    by_cases ha : es.contains c.authorEmail = true
    · by_cases hm : mes.contains c.committerEmail = true
      · simp only [ha, hm, if_pos]
        exact contribLoop_spec rest us es ms mes
      · simp only [Bool.not_eq_true] at hm
        simp only [ha, if_pos, hm, Bool.false_eq_true, if_false]
        rw [contribLoop_spec rest us es (ms ++ [c.committerName]) (mes ++ [c.committerEmail]),
          firstSeenByEmail_seen_append]
        simp
    · simp only [Bool.not_eq_true] at ha
      by_cases hm : mes.contains c.committerEmail = true
      · simp only [ha, Bool.false_eq_true, if_false, hm, if_pos]
        rw [contribLoop_spec rest (us ++ [c.authorName]) (es ++ [c.authorEmail]) ms mes,
          firstSeenByEmail_seen_append]
        simp
      · simp only [Bool.not_eq_true] at hm
        simp only [ha, hm, Bool.false_eq_true, if_false]
        rw [contribLoop_spec rest (us ++ [c.authorName]) (es ++ [c.authorEmail])
          (ms ++ [c.committerName]) (mes ++ [c.committerEmail]),
          firstSeenByEmail_seen_append, firstSeenByEmail_seen_append]
        simp

/-- The extraction equals first-seen deduplication of the identities the
policy projects out of the commits. -/
theorem listContributorNameAndEmail_spec (commits : List PRCommit)
    (repoCnf : RepoConfig) :
    listContributorNameAndEmail commits repoCnf =
      ((firstSeenByEmail (commits.map (commitIdentity repoCnf)) []).map Prod.fst,
        (firstSeenByEmail (commits.map (commitIdentity repoCnf)) []).map Prod.snd) := by
  unfold listContributorNameAndEmail commitIdentity
  cases hb : repoCnf.checkByCommitter with
  | false => simp [contribLoop_spec commits [] [] [] [], hb]
  | true => simp [contribLoop_spec commits [] [] [] [], hb]

/-- The deduplicated emails avoid the seen list and repeat nothing. -/
theorem firstSeenByEmail_emails_nodup :
    ∀ (l : List (String × String)) (seen : List String),
      ((firstSeenByEmail l seen).map Prod.snd).Nodup ∧
      ∀ e ∈ (firstSeenByEmail l seen).map Prod.snd, seen.contains e = false
  | [], seen => by simp [firstSeenByEmail]
  | p :: rest, seen => by
    by_cases hc : seen.contains p.2 = true
    · simp only [firstSeenByEmail, hc, if_pos]
      exact firstSeenByEmail_emails_nodup rest seen
    · simp only [Bool.not_eq_true] at hc
      simp only [firstSeenByEmail, hc, Bool.false_eq_true, if_false, List.map_cons]
      obtain ⟨hnd, havoid⟩ := firstSeenByEmail_emails_nodup rest (p.2 :: seen)
      have hfresh : ∀ e ∈ (firstSeenByEmail rest (p.2 :: seen)).map Prod.snd,
          e ≠ p.2 ∧ seen.contains e = false := by
        intro e he
        have := havoid e he
        rw [List.contains_cons] at this
        simp only [Bool.or_eq_false_iff] at this
        exact ⟨beq_eq_false_iff_ne.mp this.1, this.2⟩
      constructor
      · rw [List.nodup_cons]
        refine ⟨fun hmem => ?_, hnd⟩
        exact (hfresh p.2 hmem).1 rfl
      · intro e he
        rw [List.mem_cons] at he
        rcases he with rfl | he
        · exact hc
        · exact (hfresh e he).2

/-- As many retained names as retained emails. -/
theorem listContrib_length (commits : List PRCommit) (repoCnf : RepoConfig) :
    (listContributorNameAndEmail commits repoCnf).1.length =
      (listContributorNameAndEmail commits repoCnf).2.length := by
  rw [listContributorNameAndEmail_spec]
  simp

/-- The identity pairs of the aggregation are exactly the first-seen
deduplication of the projected commits. -/
theorem identityPairs_eq (commits : List PRCommit) (repoCnf : RepoConfig) :
    identityPairs repoCnf commits =
      firstSeenByEmail (commits.map (commitIdentity repoCnf)) [] := by
  unfold identityPairs
  rw [listContributorNameAndEmail_spec]
  exact zip_map_fst_snd _

/-- Every full evaluation starts by fetching the pull-request commits. -/
theorem getCommits_mem_eval (cli : Client) (cnf : BotConfig) (repoCnf : RepoConfig) :
    Call.getPullRequestCommits ∈ checkIfAllSignedCLA cli cnf repoCnf := by
  unfold checkIfAllSignedCLA
  cases cli.getPullRequestCommitsResult with
  | none => simp
  | some commits =>
    by_cases h : (commits.length == 0) = true
    · simp [h]
    · simp only [Bool.not_eq_true] at h
      simp [h]

/-- The guidance cleanup never removes a label. -/
theorem no_remove_in_guide (cli : Client) (cnf : BotConfig) (ls : List String) :
    Call.removePRLabels ls ∉ removeCLASignGuideComment cli cnf := by
  intro hmem
  rcases guide_calls_shape cli cnf _ hmem with h1 | ⟨i, h1⟩
  · exact Call.noConfusion h1
  · exact Call.noConfusion h1

/-- The guidance cleanup never adds a label. -/
theorem no_add_in_guide (cli : Client) (cnf : BotConfig) (ls : List String) :
    Call.addPRLabels ls ∉ removeCLASignGuideComment cli cnf := by
  intro hmem
  rcases guide_calls_shape cli cnf _ hmem with h1 | ⟨i, h1⟩
  · exact Call.noConfusion h1
  · exact Call.noConfusion h1

/-! The claim theorems. -/

/-- C2: for every identity in the aggregation input, in order: an email equal
to the lite committer email or empty is classified Unknown and the signature
service is not called for it; any other email gets exactly one service call
whose answer is mapped exact yes to Signed, exact no to Unsigned, anything
else to Unknown — so the lite or empty classification is Unknown regardless
of what the service would return. -/
theorem claim_c2_per_identity_classification (cli : Client) (repoCnf : RepoConfig)
    (l : List (String × String)) :
    classifyLoop cli repoCnf l =
      ((l.filterMap (specSigned cli repoCnf), l.filterMap (specUnsigned cli repoCnf),
        l.filterMap (specUnknown cli repoCnf)), l.filterMap (specCall repoCnf)) ∧
    (∀ p : String × String, liteOrEmptyB repoCnf p.2 = true →
      specUnknown cli repoCnf p = some p.1 ∧ specSigned cli repoCnf p = none ∧
        specUnsigned cli repoCnf p = none ∧ specCall repoCnf p = none) := by
  refine ⟨classifyLoop_spec cli repoCnf l, ?_⟩
  intro p hp
  simp [specUnknown, specSigned, specUnsigned, specCall, hp]

/-- Witness for C2: the lite-committer identity of the concrete policy is
classified Unknown without a service call even though the concrete service
answers yes for every email. -/
theorem claim_c2_witness :
    specUnknown cliAllYes repoA ("lite", "lite.committer.example") = some "lite" ∧
      specCall repoA ("lite", "lite.committer.example") = none := by
  have h := (claim_c2_per_identity_classification cliAllYes repoA []).2
    ("lite", "lite.committer.example") (by decide)
  exact ⟨h.1, h.2.2.2⟩

/-- C3: the extracted identity list is the first-seen deduplication, by exact
email string equality, of the commit identities the policy projects
(committer fields when checkByCommitter, author fields otherwise): the
emails are pairwise distinct, first-occurrence order is kept, each email
keeps the first name seen with it, and there are as many names as emails. -/
theorem claim_c3_contributor_extraction (commits : List PRCommit)
    (repoCnf : RepoConfig) :
    identityPairs repoCnf commits =
      firstSeenByEmail (commits.map (commitIdentity repoCnf)) [] ∧
    ((listContributorNameAndEmail commits repoCnf).2).Nodup ∧
    (listContributorNameAndEmail commits repoCnf).1.length =
      (listContributorNameAndEmail commits repoCnf).2.length := by
  refine ⟨identityPairs_eq commits repoCnf, ?_, listContrib_length commits repoCnf⟩
  rw [listContributorNameAndEmail_spec]
  exact (firstSeenByEmail_emails_nodup _ []).1

/-- C7: the Fail reconciliation with an empty unsigned payload is a complete
no-op: it performs no client call at all, in particular no label add or
remove and no comment creation. -/
theorem claim_c7_fail_empty_payload_noop (cli : Client) (cnf : BotConfig)
    (repoCnf : RepoConfig) (prLabels : List String) :
    waitCLASignature cli cnf repoCnf [] prLabels = [] := by
  simp [waitCLASignature]

/-- C8: guidance cleanup lists the PR comments and deletes exactly the
comments whose body contains the guide marker or the pass marker; when the
listing fails it performs nothing further. Delete outcomes are not read at
all, so individual delete failures are not surfaced or retried. -/
theorem claim_c8_guide_cleanup (cli : Client) (cnf : BotConfig) :
    (cli.listPullRequestCommentsResult = none →
      removeCLASignGuideComment cli cnf = [Call.listPullRequestComments]) ∧
    (∀ comments, cli.listPullRequestCommentsResult = some comments →
      (∀ cm ∈ comments,
        (strContains cm.body cnf.placeholderCLASignGuideTitle ||
          strContains cm.body cnf.placeholderCLASignPassTitle) = true →
        Call.deletePRComment cm.id ∈ removeCLASignGuideComment cli cnf) ∧
      (∀ i, Call.deletePRComment i ∈ removeCLASignGuideComment cli cnf →
        ∃ cm ∈ comments, cm.id = i ∧
          (strContains cm.body cnf.placeholderCLASignGuideTitle ||
            strContains cm.body cnf.placeholderCLASignPassTitle) = true)) := by
  constructor
  · intro h
    simp [removeCLASignGuideComment, h]
  · intro comments h
    constructor
    · intro cm hm hb
      simp only [removeCLASignGuideComment, h, List.mem_cons, List.mem_filterMap]
      refine Or.inr ⟨cm, hm, ?_⟩
      rw [if_pos hb]
    · intro i hi
      simp only [removeCLASignGuideComment, h, List.mem_cons, List.mem_filterMap] at hi
      rcases hi with hi | ⟨cm, hm, hcm⟩
      · exact Call.noConfusion hi
      · by_cases hb : (strContains cm.body cnf.placeholderCLASignGuideTitle ||
            strContains cm.body cnf.placeholderCLASignPassTitle) = true
        · rw [if_pos hb] at hcm
          have h3 := Option.some_inj.mp hcm
          have h4 : cm.id = i := by injection h3
          exact ⟨cm, hm, h4, hb⟩
        · rw [if_neg hb] at hcm
          exact Option.noConfusion hcm

/-- Witness for C8: on the concrete client the guide-marked comment is
deleted. -/
theorem claim_c8_witness :
    Call.deletePRComment "id1" ∈ removeCLASignGuideComment cliComments cnfA :=
  ((claim_c8_guide_cleanup cliComments cnfA).2
    [⟨"id1", "x CLA Guide y"⟩, ⟨"id2", "plain text"⟩] rfl).1
    ⟨"id1", "x CLA Guide y"⟩ (by decide) (by decide)

/-- C9: when fetching the commits fails the evaluation stops after posting
the fixed fallback comment, and when the commit list is empty it stops
after posting the fixed no-commits comment; in both cases no
signature-service call and no label mutation occurs. -/
theorem claim_c9_fetch_failure_aborts (cli : Client) (cnf : BotConfig)
    (repoCnf : RepoConfig) :
    (cli.getPullRequestCommitsResult = none →
      checkIfAllSignedCLA cli cnf repoCnf =
        [Call.getPullRequestCommits, Call.createPRComment cnf.commentCommandTrigger]) ∧
    (cli.getPullRequestCommitsResult = some [] →
      checkIfAllSignedCLA cli cnf repoCnf =
        [Call.getPullRequestCommits, Call.createPRComment cnf.commentPRNoCommits]) ∧
    ((cli.getPullRequestCommitsResult = none ∨
        cli.getPullRequestCommitsResult = some []) →
      ∀ c ∈ checkIfAllSignedCLA cli cnf repoCnf,
        (∀ u, c ≠ Call.checkCLASignature u) ∧
        ∀ ls, c ≠ Call.addPRLabels ls ∧ c ≠ Call.removePRLabels ls) := by
  have habort : ∀ s : String, ∀ c ∈ [Call.getPullRequestCommits, Call.createPRComment s],
      (∀ u, c ≠ Call.checkCLASignature u) ∧
      ∀ ls, c ≠ Call.addPRLabels ls ∧ c ≠ Call.removePRLabels ls := by
    intro s c hc
    simp only [List.mem_cons, List.mem_singleton, List.not_mem_nil, or_false] at hc
    rcases hc with rfl | rfl
    · exact ⟨fun u hx => Call.noConfusion hx,
        fun ls => ⟨fun hx => Call.noConfusion hx, fun hx => Call.noConfusion hx⟩⟩
    · exact ⟨fun u hx => Call.noConfusion hx,
        fun ls => ⟨fun hx => Call.noConfusion hx, fun hx => Call.noConfusion hx⟩⟩
  refine ⟨fun h => by simp [checkIfAllSignedCLA, h],
    fun h => by simp [checkIfAllSignedCLA, h], ?_⟩
  intro h c hc
  rcases h with h | h
  · rw [(by simp [checkIfAllSignedCLA, h] :
      checkIfAllSignedCLA cli cnf repoCnf =
        [Call.getPullRequestCommits, Call.createPRComment cnf.commentCommandTrigger])] at hc
    exact habort _ c hc
  · rw [(by simp [checkIfAllSignedCLA, h] :
      checkIfAllSignedCLA cli cnf repoCnf =
        [Call.getPullRequestCommits, Call.createPRComment cnf.commentPRNoCommits])] at hc
    exact habort _ c hc

/-- Witness for C9: the concrete failing fetch yields exactly the abort
trace. -/
theorem claim_c9_witness :
    checkIfAllSignedCLA cliNoCommits cnfA repoA =
      [Call.getPullRequestCommits, Call.createPRComment cnfA.commentCommandTrigger] :=
  (claim_c9_fetch_failure_aborts cliNoCommits cnfA repoA).1 rfl

/-- C1: over a non-empty identity list the verdict priority is: a non-empty
unknown bucket gives the Pending outcome — allSigned is false, only the
unknown slot of the result is filled, the fixed retry-trigger comment is
posted after the service calls, and the subsequent Fail reconciliation on
the empty unsigned payload is a no-op so no label mutation follows; else a
non-empty unsigned bucket gives the Fail outcome with the unsigned names as
payload; else the Pass outcome holds with the signed names as payload. -/
theorem claim_c1_verdict_priority (cli : Client) (cnf : BotConfig)
    (repoCnf : RepoConfig) (commits : List PRCommit)
    (h : (listContributorNameAndEmail commits repoCnf).2 ≠ []) :
    (unknownOf cli repoCnf commits ≠ [] →
      checkCLASignResult cli cnf repoCnf commits =
        ((false, ⟨[], [], unknownOf cli repoCnf commits⟩),
          serviceCallsOf cli repoCnf commits ++
            [Call.createPRComment cnf.commentCommandTrigger]) ∧
      (∀ prLabels, waitCLASignature cli cnf repoCnf [] prLabels = []) ∧
      ∀ c ∈ serviceCallsOf cli repoCnf commits, ∃ u, c = Call.checkCLASignature u) ∧
    (unknownOf cli repoCnf commits = [] → unsignedOf cli repoCnf commits ≠ [] →
      checkCLASignResult cli cnf repoCnf commits =
        ((false, ⟨[], unsignedOf cli repoCnf commits, []⟩),
          serviceCallsOf cli repoCnf commits)) ∧
    (unknownOf cli repoCnf commits = [] → unsignedOf cli repoCnf commits = [] →
      checkCLASignResult cli cnf repoCnf commits =
        ((true, ⟨signedOf cli repoCnf commits, [], []⟩),
          serviceCallsOf cli repoCnf commits)) := by
  have hpairs : identityPairs repoCnf commits =
      (listContributorNameAndEmail commits repoCnf).1.zip
        (listContributorNameAndEmail commits repoCnf).2 := rfl
  refine ⟨?_, ?_, ?_⟩
  · intro hu
    have hlu : (classifyLoop cli repoCnf
        ((listContributorNameAndEmail commits repoCnf).1.zip
          (listContributorNameAndEmail commits repoCnf).2)).1.2.2.length ≠ 0 := by
      rw [← hpairs]
      intro h0
      exact hu (List.length_eq_zero.mp h0)
    refine ⟨?_, fun prLabels => by simp [waitCLASignature],
      classify_calls_shape cli repoCnf _⟩
    simp only [checkCLASignResult]
    rw [if_pos hlu]
    rfl
  · intro hu hn
    have hlu : ¬ (classifyLoop cli repoCnf
        ((listContributorNameAndEmail commits repoCnf).1.zip
          (listContributorNameAndEmail commits repoCnf).2)).1.2.2.length ≠ 0 := by
      rw [← hpairs]
      simp only [unknownOf] at hu
      simp [hu]
    have hln : (classifyLoop cli repoCnf
        ((listContributorNameAndEmail commits repoCnf).1.zip
          (listContributorNameAndEmail commits repoCnf).2)).1.2.1.length ≠ 0 := by
      rw [← hpairs]
      intro h0
      exact hn (List.length_eq_zero.mp h0)
    simp only [checkCLASignResult]
    rw [if_neg hlu, if_pos hln]
    rfl
  · intro hu hn
    have hlu : ¬ (classifyLoop cli repoCnf
        ((listContributorNameAndEmail commits repoCnf).1.zip
          (listContributorNameAndEmail commits repoCnf).2)).1.2.2.length ≠ 0 := by
      rw [← hpairs]
      simp only [unknownOf] at hu
      simp [hu]
    have hln : ¬ (classifyLoop cli repoCnf
        ((listContributorNameAndEmail commits repoCnf).1.zip
          (listContributorNameAndEmail commits repoCnf).2)).1.2.1.length ≠ 0 := by
      rw [← hpairs]
      simp only [unsignedOf] at hn
      simp [hn]
    have hsum := classify_sum_length cli repoCnf (identityPairs repoCnf commits)
    have hzip : (identityPairs repoCnf commits).length =
        (listContributorNameAndEmail commits repoCnf).2.length := by
      rw [hpairs, List.length_zip, listContrib_length, min_self]
    have hsigned : (classifyLoop cli repoCnf
        ((listContributorNameAndEmail commits repoCnf).1.zip
          (listContributorNameAndEmail commits repoCnf).2)).1.1.length =
        (listContributorNameAndEmail commits repoCnf).2.length := by
      have h1 : (classifyLoop cli repoCnf
          ((listContributorNameAndEmail commits repoCnf).1.zip
            (listContributorNameAndEmail commits repoCnf).2)).1.2.1.length = 0 := by
        simpa using hln
      have h2 : (classifyLoop cli repoCnf
          ((listContributorNameAndEmail commits repoCnf).1.zip
            (listContributorNameAndEmail commits repoCnf).2)).1.2.2.length = 0 := by
        simpa using hlu
      rw [hpairs] at hsum hzip
      omega
    have hne : (listContributorNameAndEmail commits repoCnf).2.length ≠ 0 := by
      intro h0
      exact h (List.length_eq_zero.mp h0)
    have hb : (decide ((listContributorNameAndEmail commits repoCnf).2.length ≠ 0) &&
        ((classifyLoop cli repoCnf
          ((listContributorNameAndEmail commits repoCnf).1.zip
            (listContributorNameAndEmail commits repoCnf).2)).1.1.length ==
          (listContributorNameAndEmail commits repoCnf).2.length)) = true := by
      rw [Bool.and_eq_true, decide_eq_true_eq, beq_iff_eq]
      exact ⟨hne, hsigned⟩
    simp only [checkCLASignResult]
    rw [if_neg hlu, if_neg hln, hb]
    rfl

/-- Witness for C1: one ordinary commit against the all-yes service takes
the Pass branch of the verdict priority. -/
theorem claim_c1_witness :
    (listContributorNameAndEmail [⟨"u1", "e1", "c1", "ce1"⟩] repoA).2 ≠ [] ∧
    checkCLASignResult cliAllYes cnfA repoA [⟨"u1", "e1", "c1", "ce1"⟩] =
      ((true, ⟨signedOf cliAllYes repoA [⟨"u1", "e1", "c1", "ce1"⟩], [], []⟩),
        serviceCallsOf cliAllYes repoA [⟨"u1", "e1", "c1", "ce1"⟩]) :=
  ⟨by decide, (claim_c1_verdict_priority cliAllYes cnfA repoA [⟨"u1", "e1", "c1", "ce1"⟩]
    (by decide)).2.2 (by decide) (by decide)⟩

/-- C4: the Pass reconciliation removes labelNo only when it is present in
the current label set, a removal failure posts the fixed label-update-failed
comment without stopping the rest, and the labelYes add is always attempted
— in particular on a label set already holding labelYes and not labelNo,
every invocation, a repeated one included, still performs the same add
call. -/
theorem claim_c4_pass_reconciliation (cli : Client) (cnf : BotConfig)
    (repoCnf : RepoConfig) (signedUsers prLabels : List String) :
    (prLabels.contains repoCnf.claLabelNo = false →
      ∀ ls, Call.removePRLabels ls ∉
        passCLASignature cli cnf repoCnf signedUsers prLabels) ∧
    (prLabels.contains repoCnf.claLabelNo = true →
      Call.removePRLabels [queryEscape repoCnf.claLabelNo] ∈
        passCLASignature cli cnf repoCnf signedUsers prLabels ∧
      (cli.removePRLabelsResult [queryEscape repoCnf.claLabelNo] = false →
        Call.createPRComment cnf.commentUpdateLabelFailed ∈
          passCLASignature cli cnf repoCnf signedUsers prLabels)) ∧
    Call.addPRLabels [repoCnf.claLabelYes] ∈
      passCLASignature cli cnf repoCnf signedUsers prLabels := by
  refine ⟨?_, ?_, ?_⟩
  · intro hno ls hmem
    have hno2 : repoCnf.claLabelNo ∉ prLabels := by simpa using hno
    by_cases hadd : cli.addPRLabelsResult [repoCnf.claLabelYes] = true <;>
      simp [passCLASignature, hno2, hadd, no_remove_in_guide cli cnf] at hmem
  · intro hyes
    have hyes2 : repoCnf.claLabelNo ∈ prLabels := by simpa using hyes
    constructor
    · by_cases hrem : cli.removePRLabelsResult [queryEscape repoCnf.claLabelNo] = true <;>
        by_cases hadd : cli.addPRLabelsResult [repoCnf.claLabelYes] = true <;>
        simp [passCLASignature, hyes2, hrem, hadd]
    · intro hremf
      by_cases hadd : cli.addPRLabelsResult [repoCnf.claLabelYes] = true <;>
        simp [passCLASignature, hyes2, hremf, hadd]
  · by_cases hno : prLabels.contains repoCnf.claLabelNo = true
    · have hno2 : repoCnf.claLabelNo ∈ prLabels := by simpa using hno
      by_cases hrem : cli.removePRLabelsResult [queryEscape repoCnf.claLabelNo] = true <;>
        by_cases hadd : cli.addPRLabelsResult [repoCnf.claLabelYes] = true <;>
        simp [passCLASignature, hno2, hrem, hadd]
    · have hno2 : repoCnf.claLabelNo ∉ prLabels := by simpa using hno
      by_cases hadd : cli.addPRLabelsResult [repoCnf.claLabelYes] = true <;>
        simp [passCLASignature, hno2, hadd]

/-- Witness for C4: against the concrete label set that already holds the
yes label and not the no label, the Pass path still submits the labelYes
add. -/
theorem claim_c4_witness :
    Call.addPRLabels [repoA.claLabelYes] ∈
      passCLASignature cliYesLabel cnfA repoA ["u1"] ["cla-yes"] :=
  (claim_c4_pass_reconciliation cliYesLabel cnfA repoA ["u1"] ["cla-yes"]).2.2

/-- C10: in both reconciliation paths every label removal submits the
query-escaped label name while every label addition submits the raw name,
so for a label name that escaping alters, the string submitted for removal
differs from the string submitted for addition of that same label. -/
theorem claim_c10_escape_asymmetry (cli : Client) (cnf : BotConfig)
    (repoCnf : RepoConfig) (signedUsers unsignedUsers prLabels prLabels2 : List String) :
    (∀ ls, Call.removePRLabels ls ∈
        passCLASignature cli cnf repoCnf signedUsers prLabels →
      ls = [queryEscape repoCnf.claLabelNo]) ∧
    (∀ ls, Call.addPRLabels ls ∈
        passCLASignature cli cnf repoCnf signedUsers prLabels →
      ls = [repoCnf.claLabelYes]) ∧
    (∀ ls, Call.removePRLabels ls ∈
        waitCLASignature cli cnf repoCnf unsignedUsers prLabels2 →
      ls = [queryEscape repoCnf.claLabelYes]) ∧
    (∀ ls, Call.addPRLabels ls ∈
        waitCLASignature cli cnf repoCnf unsignedUsers prLabels2 →
      ls = [repoCnf.claLabelNo]) ∧
    (queryEscape repoCnf.claLabelNo ≠ repoCnf.claLabelNo →
      [queryEscape repoCnf.claLabelNo] ≠ [repoCnf.claLabelNo]) := by
  refine ⟨?_, ?_, ?_, ?_, ?_⟩
  · intro ls hmem
    by_cases hno : repoCnf.claLabelNo ∈ prLabels <;>
      by_cases hrem : cli.removePRLabelsResult [queryEscape repoCnf.claLabelNo] = true <;>
      by_cases hadd : cli.addPRLabelsResult [repoCnf.claLabelYes] = true <;>
      simp [passCLASignature, hno, hrem, hadd, no_remove_in_guide cli cnf] at hmem <;>
      exact hmem
  · intro ls hmem
    by_cases hno : repoCnf.claLabelNo ∈ prLabels <;>
      by_cases hrem : cli.removePRLabelsResult [queryEscape repoCnf.claLabelNo] = true <;>
      by_cases hadd : cli.addPRLabelsResult [repoCnf.claLabelYes] = true <;>
      simp [passCLASignature, hno, hrem, hadd, no_add_in_guide cli cnf] at hmem <;>
      exact hmem
  · intro ls hmem
    by_cases hemp : (unsignedUsers.length == 0) = true <;>
      by_cases hyes : repoCnf.claLabelYes ∈ prLabels2 <;>
      by_cases hrem : cli.removePRLabelsResult [queryEscape repoCnf.claLabelYes] = true <;>
      by_cases hadd : cli.addPRLabelsResult [repoCnf.claLabelNo] = true <;>
      simp [waitCLASignature, hemp, hyes, hrem, hadd, no_remove_in_guide cli cnf] at hmem <;>
      exact hmem
  · intro ls hmem
    by_cases hemp : (unsignedUsers.length == 0) = true <;>
      by_cases hyes : repoCnf.claLabelYes ∈ prLabels2 <;>
      by_cases hrem : cli.removePRLabelsResult [queryEscape repoCnf.claLabelYes] = true <;>
      by_cases hadd : cli.addPRLabelsResult [repoCnf.claLabelNo] = true <;>
      simp [waitCLASignature, hemp, hyes, hrem, hadd, no_add_in_guide cli cnf] at hmem <;>
      exact hmem
  · intro hne hc
    apply hne
    injection hc

/-- Witness for C10: with a no label containing a space, the removal payload
of the concrete Pass invocation is the escaped name, which differs from
the raw name an addition would submit. -/
theorem claim_c10_witness :
    queryEscape "cla no" = "cla+no" ∧
    (∀ ls, Call.removePRLabels ls ∈
        passCLASignature cliAllYes cnfA repoSpace ["u1"] ["cla no"] →
      ls = [queryEscape repoSpace.claLabelNo]) ∧
    [queryEscape repoSpace.claLabelNo] ≠ [repoSpace.claLabelNo] := by
  have h := claim_c10_escape_asymmetry cliAllYes cnfA repoSpace ["u1"] ["u2"] ["cla no"] []
  exact ⟨by decide, h.1, h.2.2.2.2 (by decide)⟩

/-- C5, evaluated at the failing input: on a pull request labelled with the
yes label, the cancel command makes the handler submit a removal of the
escaped no label and never submits a removal of the yes label. -/
theorem claim_c5_cancel_removes_wrong_label :
    handlePullRequestCommentEvent cliYesLabel cnfA repoA "/cla cancel" =
      [Call.getPullRequestLabels, Call.removePRLabels ["cla-no"]] ∧
    ∀ c ∈ handlePullRequestCommentEvent cliYesLabel cnfA repoA "/cla cancel",
      c ≠ Call.removePRLabels ["cla-yes"] := by
  exact ⟨by decide, by decide⟩

/-- Counterexample for C6: a comment body that is the check-cla command
surrounded by whitespace satisfies the stated trigger condition, yet the
handler performs nothing at all on it. -/
theorem claim_c6_counterexample :
    specCheckCLATrigger " /check-cla " = true ∧
    handlePullRequestCommentEvent cliNoCommits cnfA repoA " /check-cla " = [] := by
  exact ⟨by decide, by decide⟩

/-- C6 as amended: an evaluation is triggered exactly when the body does not
match the cancel command and some newline-delimited line of the body is,
after ASCII lower-casing, exactly the check-cla command — whitespace around
the command on its own line is not allowed, while other lines around the
command line are. -/
theorem claim_c6_amended_trigger_iff (cli : Client) (cnf : BotConfig)
    (repoCnf : RepoConfig) (body : String) :
    Call.getPullRequestCommits ∈ handlePullRequestCommentEvent cli cnf repoCnf body ↔
      (matchCancelCLAComment body = false ∧
        (splitOnNl body.toList).any (fun l => l.map asciiLower == "/check-cla".toList) = true) := by
  have hck : matchCheckCLAComment body =
      (splitOnNl body.toList).any (fun l => l.map asciiLower == "/check-cla".toList) := rfl
  rw [← hck]
  unfold handlePullRequestCommentEvent
  by_cases hc : matchCancelCLAComment body = true
  · rw [if_pos hc]
    constructor
    · intro hmem
      by_cases hl : cli.getPullRequestLabelsResult.contains repoCnf.claLabelYes = true
      · rw [if_pos hl] at hmem
        simp at hmem
      · rw [if_neg hl] at hmem
        simp at hmem
    · rintro ⟨h1, _⟩
      rw [hc] at h1
      exact Bool.noConfusion h1
  · simp only [Bool.not_eq_true] at hc
    rw [if_neg (by simp [hc])]
    by_cases hk : matchCheckCLAComment body = true
    · rw [if_neg (by simp [hk])]
      exact ⟨fun _ => ⟨hc, hk⟩, fun _ => getCommits_mem_eval cli cnf repoCnf⟩
    · simp only [Bool.not_eq_true] at hk
      rw [if_pos (by simp [hk])]
      constructor
      · intro hmem
        exact absurd hmem (List.not_mem_nil _)
      · rintro ⟨_, h2⟩
        rw [hk] at h2
        exact Bool.noConfusion h2

end RobotCLA
